import Mathlib

/-!
Shallow embedding of the TickrShell DataService core
(src/src/MockData.cpp, src/src/DataService.cpp and their headers).

Machine doubles are modelled as exact rationals; the normal-distribution
draw `dist(rng)` is modelled as an oracle `draw : Nat → ℚ` consumed at an
index that advances once per generation call; wall-clock timestamps are
modelled as a logical clock advanced once per generated quote.  The
external collaborators excluded by the spec (transport, SQLite persistence,
currency-rate source) are modelled as explicit state components
(`db_subs`, `db_prices`) and oracle functions (`Env`).
-/

namespace StockTracker

/-- StockConfig from MockData.h: per-symbol immutable configuration. -/
structure StockConfig where
  base_price : ℚ
  volatility : ℚ
  trend : ℚ
deriving DecidableEq, Repr

/-- A quote (StockTracker/Types.h StockQuote as used by this repository):
symbol, price, currency, percent change, timestamp. -/
structure StockQuote where
  symbol : String
  price : ℚ
  currency : String
  change_percent : ℚ
  timestamp : Nat
deriving DecidableEq, Repr

/-- The static symbol table built in MockDataProvider's constructor
(MockData.cpp lines 7-15). -/
def stock_configs : List (String × StockConfig) :=
  [("AAPL", ⟨175, 2/1000, 1/10000⟩),
   ("MSFT", ⟨320, 15/10000, 12/100000⟩),
   ("GOOGL", ⟨140, 25/10000, 8/100000⟩),
   ("AMZN", ⟨130, 3/1000, 15/100000⟩),
   ("META", ⟨270, 35/10000, -5/100000⟩)]

/-- MockDataProvider::isValidSymbol: membership in the static config table. -/
def isValidSymbol (symbol : String) : Bool :=
  (stock_configs.lookup symbol).isSome

/-- Mutable state of MockDataProvider: the last_prices unordered_map and
the position in the random stream (the mt19937 engine). -/
structure MockState where
  last_prices : List (String × ℚ)
  rngIdx : Nat
deriving DecidableEq, Repr

/-- C++ `unordered_map::operator[]`: returns the mapped value, default
inserting 0 when the key is absent; yields the value and the (possibly
extended) map. -/
def mapIndex (m : List (String × ℚ)) (k : String) : ℚ × List (String × ℚ) :=
  match m.lookup k with
  | some v => (v, m)
  | none => (0, m ++ [(k, 0)])

/-- MockDataProvider::generateQuote (MockData.cpp lines 17-49).  `none`
models the thrown UnknownSymbolError.  Note the faithful rendering of the
source: `auto last_price = last_prices[symbol];` copies the mapped value
into a local, and the later `last_price = new_price;` assigns only to that
local — the map entry itself is never written back. -/
def generateQuote (draw : Nat → ℚ) (ms : MockState) (clock : Nat)
    (symbol : String) : Option (StockQuote × MockState) :=
  match stock_configs.lookup symbol with
  | none => none
  | some config =>
    let looked := mapIndex ms.last_prices symbol
    let last_price0 := looked.1
    let last_price := if last_price0 = 0 then config.base_price else last_price0
    let change := draw ms.rngIdx
    let new_price := last_price * (1 + change)
    let percent_change := (new_price - last_price) / last_price * 100
    some (⟨symbol, new_price, "USD", percent_change, clock⟩,
      ⟨looked.2, ms.rngIdx + 1⟩)

/-- Outbound messages (StockTracker/Messages.h Message::make... forms used
by DataService.cpp). -/
inductive OutMsg where
  | QuoteUpdate (q : StockQuote)
  | SubscribeAck (symbol : String)
  | UnsubscribeAck (symbol : String)
  | PriceHistory (symbol : String) (history : List (ℚ × Nat))
  | SubscriptionsList (symbols : List String)
  | Error (text : String)
deriving DecidableEq, Repr

/-- Inbound commands (Message discriminants handled by
DataService::handleMessage). -/
inductive Command where
  | Subscribe (symbol : String)
  | Unsubscribe (symbol : String)
  | Query (symbol : String)
  | PriceHistoryRequest (symbol : String)
  | RequestSubscriptions
  | SetCurrency (currency : String)
deriving DecidableEq, Repr

/-- A persisted price point: DataService::storeStockPrice builds
`StockQuote{ symbol, price, timestamp }` and hands it to
DatabaseService::savePrice — only these three fields reach persistence. -/
structure PricePoint where
  symbol : String
  price : ℚ
  timestamp : Nat
deriving DecidableEq, Repr

/-- DataService::storeStockPrice (DataService.cpp lines 206-211): build a
record from symbol, price and timestamp only and hand it to
DatabaseService::savePrice. -/
def storeStockPrice (db : List PricePoint) (symbol : String) (price : ℚ)
    (timestamp : Nat) : List PricePoint :=
  db ++ [⟨symbol, price, timestamp⟩]

/-- Oracles for the excluded collaborators: CurrencyService validation and
conversion (`none` models a thrown conversion failure) and the
normal-distribution sampler. -/
structure Env where
  isValidCurrencyCode : String → Bool
  convertCurrency : ℚ → String → Option ℚ
  draw : Nat → ℚ

/-- State owned by a DataService instance plus the persisted state it is
wired to: current_currency and subscribed_stocks (DataService.h), the
MockDataProvider state, the SQLite-backed subscription set and price
history, and the logical clock feeding quote timestamps. -/
structure ServiceState where
  current_currency : String
  subscribed_stocks : List String
  mock : MockState
  db_subs : List String
  db_prices : List PricePoint
  clock : Nat
deriving DecidableEq, Repr

/-- `unordered_set::insert` / the db saveSubscription row-insert: add the
symbol when absent, keep the set unchanged when present. -/
def insertUnique (l : List String) (x : String) : List String :=
  if x ∈ l then l else l ++ [x]

/-- DataService::DataService (DataService.cpp lines 9-30): restore each
persisted subscription into the in-memory set; currency starts at USD. -/
def initService (persisted : List String) : ServiceState :=
  { current_currency := "USD"
  , subscribed_stocks := persisted.foldl insertUnique []
  , mock := ⟨[], 0⟩
  , db_subs := persisted
  , db_prices := []
  , clock := 0 }

/-- DataService::subscribeStock (DataService.cpp lines 83-128). -/
def subscribeStock (env : Env) (s : ServiceState) (symbol : String) :
    ServiceState × List OutMsg :=
  if isValidSymbol symbol then
    if symbol ∈ s.subscribed_stocks then
      (s, [.Error ("Already subscribed to " ++ symbol)])
    else
      let s1 : ServiceState :=
        { s with subscribed_stocks := s.subscribed_stocks ++ [symbol]
               , db_subs := insertUnique s.db_subs symbol }
      match generateQuote env.draw s1.mock s1.clock symbol with
      | none =>
        -- unreachable under the validity check; the exception would
        -- escape to handleMessage's catch after the ack was sent
        (s1, [.SubscribeAck symbol, .Error ("Invalid symbol: " ++ symbol)])
      | some (q0, mock1) =>
        let q1 : StockQuote := { q0 with currency := "USD" }
        let q2 : StockQuote :=
          if s1.current_currency ≠ "USD" then
            match env.convertCurrency 1 s1.current_currency with
            | some rate =>
              { q1 with price := q1.price * rate
                      , currency := s1.current_currency }
            | none => q1
          else q1
        ({ s1 with mock := mock1
                 , clock := s1.clock + 1
                 , db_prices :=
                     storeStockPrice s1.db_prices symbol q2.price q2.timestamp },
         [.SubscribeAck symbol, .QuoteUpdate q2])
  else
    (s, [.Error ("Invalid symbol: " ++ symbol)])

/-- DataService::unsubscribeStock (DataService.cpp lines 130-147). -/
def unsubscribeStock (s : ServiceState) (symbol : String) :
    ServiceState × List OutMsg :=
  if symbol ∈ s.subscribed_stocks then
    ({ s with db_subs := s.db_subs.erase symbol
            , subscribed_stocks := s.subscribed_stocks.erase symbol },
     [.UnsubscribeAck symbol])
  else
    (s, [.Error ("Symbol " ++ symbol ++ " is not subscribed.")])

/-- DataService::queryStock (DataService.cpp lines 149-183). -/
def queryStock (env : Env) (s : ServiceState) (symbol : String) :
    ServiceState × List OutMsg :=
  if ¬ isValidSymbol symbol then
    (s, [.Error ("Invalid symbol: " ++ symbol)])
  else
    match generateQuote env.draw s.mock s.clock symbol with
    | none =>
      -- unreachable under the validity check; modelled as the local catch
      (s, [.Error ("Invalid symbol: " ++ symbol)])
    | some (q0, mock1) =>
      let q1 : StockQuote := { q0 with currency := "USD" }
      let q2 : StockQuote :=
        if s.current_currency ≠ "USD" then
          match env.convertCurrency q1.price s.current_currency with
          | some converted_price =>
            { q1 with price := converted_price
                    , currency := s.current_currency }
          | none => q1
        else q1
      ({ s with mock := mock1
              , clock := s.clock + 1
              , db_prices :=
                  storeStockPrice s.db_prices symbol q2.price q2.timestamp },
       [.QuoteUpdate q2])

/-- DataService::sendPriceHistory (DataService.cpp lines 186-192):
DatabaseService::getPriceHistory returns the stored (price, timestamp)
sequence for the symbol. -/
def sendPriceHistory (s : ServiceState) (symbol : String) :
    ServiceState × List OutMsg :=
  (s, [.PriceHistory symbol
        ((s.db_prices.filter (fun p => p.symbol = symbol)).map
          (fun p => (p.price, p.timestamp)))])

/-- DataService::sendSubscriptionsList (DataService.cpp lines 194-204):
note the source reads db_service.getSubscriptions(), not the in-memory
subscribed_stocks set. -/
def sendSubscriptionsList (s : ServiceState) : ServiceState × List OutMsg :=
  (s, [.SubscriptionsList s.db_subs])

/-- One fold step used when a list of symbols is swept with a per-symbol
operation, accumulating outbound messages in publication order. -/
def sweepStep (op : ServiceState → String → ServiceState × List OutMsg)
    (acc : ServiceState × List OutMsg) (symbol : String) :
    ServiceState × List OutMsg :=
  let r := op acc.1 symbol
  (r.1, acc.2 ++ r.2)

/-- DataService::handleMessage (DataService.cpp lines 33-81). -/
def handleMessage (env : Env) (s : ServiceState) (msg : Command) :
    ServiceState × List OutMsg :=
  match msg with
  | .Subscribe symbol => subscribeStock env s symbol
  | .Unsubscribe symbol => unsubscribeStock s symbol
  | .Query symbol => queryStock env s symbol
  | .PriceHistoryRequest symbol => sendPriceHistory s symbol
  | .RequestSubscriptions => sendSubscriptionsList s
  | .SetCurrency currency =>
    if env.isValidCurrencyCode currency then
      let s1 : ServiceState := { s with current_currency := currency }
      s1.subscribed_stocks.foldl (sweepStep (queryStock env)) (s1, [])
    else
      (s, [.Error ("Invalid currency code: " ++ currency)])

/-- The per-symbol body of the broadcast loop (DataService.cpp lines
234-259): like queryStock but with no validity pre-check and with the
whole body wrapped in a catch that only logs (publishes nothing). -/
def tickOne (env : Env) (s : ServiceState) (symbol : String) :
    ServiceState × List OutMsg :=
  match generateQuote env.draw s.mock s.clock symbol with
  | none => (s, [])
  | some (q0, mock1) =>
    let q1 : StockQuote := { q0 with currency := "USD" }
    let q2 : StockQuote :=
      if s.current_currency ≠ "USD" then
        match env.convertCurrency q1.price s.current_currency with
        | some converted_price =>
          { q1 with price := converted_price
                  , currency := s.current_currency }
        | none => q1
      else q1
    ({ s with mock := mock1
            , clock := s.clock + 1
            , db_prices :=
                storeStockPrice s.db_prices symbol q2.price q2.timestamp },
     [.QuoteUpdate q2])

/-- One broadcast tick (DataService.cpp lines 233-260): sweep the current
subscription set, processing each symbol with tickOne. -/
def broadcastTick (env : Env) (s : ServiceState) :
    ServiceState × List OutMsg :=
  s.subscribed_stocks.foldl (sweepStep (tickOne env)) (s, [])

/-! ## Helper lemmas -/

/-- A valid symbol always yields a generated quote, carrying that symbol,
the base currency and the current clock as timestamp. -/
lemma generateQuote_some (d : Nat → ℚ) (ms : MockState) (c : Nat)
    (sym : String) (h : isValidSymbol sym = true) :
    ∃ q ms2, generateQuote d ms c sym = some (q, ms2) ∧
      q.symbol = sym ∧ q.currency = "USD" ∧ q.timestamp = c := by
  unfold isValidSymbol at h
  rcases ho : stock_configs.lookup sym with _ | cfg
  · rw [ho] at h
    simp at h
  · exact ⟨_, _, by rw [generateQuote, ho], rfl, rfl, rfl⟩

/-- An invalid symbol makes generateQuote fail (the thrown
UnknownSymbolError). -/
lemma generateQuote_none (d : Nat → ℚ) (ms : MockState) (c : Nat)
    (sym : String) (h : isValidSymbol sym = false) :
    generateQuote d ms c sym = none := by
  unfold isValidSymbol at h
  rcases ho : stock_configs.lookup sym with _ | cfg
  · rw [generateQuote, ho]
  · rw [ho] at h
    simp at h

/-- queryStock never touches the currency, the in-memory subscription set
or the persisted subscription set. -/
lemma queryStock_preserves (env : Env) (s : ServiceState) (sym : String) :
    (queryStock env s sym).1.current_currency = s.current_currency ∧
    (queryStock env s sym).1.subscribed_stocks = s.subscribed_stocks ∧
    (queryStock env s sym).1.db_subs = s.db_subs := by
  unfold queryStock
  rcases hv : isValidSymbol sym with _ | _
  · simp
  · simp only [hv]
    rcases hg : generateQuote env.draw s.mock s.clock sym with _ | p
    · simp
    · rcases hc : decide (s.current_currency ≠ "USD") with _ | _ <;>
        · simp only []
          split <;> try split
          all_goals simp

/-- Full characterisation of queryStock on a valid symbol: exactly one
QuoteUpdate is published, carrying the queried symbol; the published price
is persisted via storeStockPrice; the currency is the base currency when no
conversion applies, and otherwise reflects best-effort conversion. -/
lemma queryStock_valid (env : Env) (s : ServiceState) (sym : String)
    (h : isValidSymbol sym = true) :
    ∃ q, (queryStock env s sym).2 = [OutMsg.QuoteUpdate q] ∧
      q.symbol = sym ∧ q.timestamp = s.clock ∧
      (queryStock env s sym).1.db_prices =
        storeStockPrice s.db_prices sym q.price q.timestamp ∧
      (s.current_currency = "USD" → q.currency = "USD") ∧
      (s.current_currency ≠ "USD" →
        (q.currency = "USD" ∧
          env.convertCurrency q.price s.current_currency = none) ∨
        (q.currency = s.current_currency ∧
          ∃ b, env.convertCurrency b s.current_currency = some q.price)) := by
  obtain ⟨q0, ms2, hg, hsym, hcur, hts⟩ :=
    generateQuote_some env.draw s.mock s.clock sym h
  unfold queryStock
  simp only [h, Bool.true_eq_false, not_true_eq_false, if_false, hg,
    ite_not]
  by_cases hc : s.current_currency = "USD"
  · rw [if_pos hc]
    exact ⟨_, rfl, hsym, hts, rfl, fun _ => rfl, fun hne => absurd hc hne⟩
  · rw [if_neg hc]
    rcases hcv : env.convertCurrency q0.price s.current_currency with _ | cp
    · exact ⟨_, rfl, hsym, hts, rfl, fun hu => absurd hu hc,
        fun _ => Or.inl ⟨rfl, hcv⟩⟩
    · exact ⟨_, rfl, hsym, hts, rfl, fun hu => absurd hu hc,
        fun _ => Or.inr ⟨rfl, ⟨q0.price, hcv⟩⟩⟩

/-- tickOne never touches the currency, the in-memory subscription set or
the persisted subscription set. -/
lemma tickOne_preserves (env : Env) (s : ServiceState) (sym : String) :
    (tickOne env s sym).1.current_currency = s.current_currency ∧
    (tickOne env s sym).1.subscribed_stocks = s.subscribed_stocks ∧
    (tickOne env s sym).1.db_subs = s.db_subs := by
  unfold tickOne
  rcases hg : generateQuote env.draw s.mock s.clock sym with _ | p <;> simp

/-- Full characterisation of the broadcast-loop body on a valid symbol:
one QuoteUpdate, with the same best-effort-conversion contract as
queryStock. -/
lemma tickOne_valid (env : Env) (s : ServiceState) (sym : String)
    (h : isValidSymbol sym = true) :
    ∃ q, (tickOne env s sym).2 = [OutMsg.QuoteUpdate q] ∧
      q.symbol = sym ∧ q.timestamp = s.clock ∧
      (tickOne env s sym).1.db_prices =
        storeStockPrice s.db_prices sym q.price q.timestamp ∧
      (s.current_currency = "USD" → q.currency = "USD") ∧
      (s.current_currency ≠ "USD" →
        (q.currency = "USD" ∧
          env.convertCurrency q.price s.current_currency = none) ∨
        (q.currency = s.current_currency ∧
          ∃ b, env.convertCurrency b s.current_currency = some q.price)) := by
  obtain ⟨q0, ms2, hg, hsym, hcur, hts⟩ :=
    generateQuote_some env.draw s.mock s.clock sym h
  unfold tickOne
  simp only [hg, ite_not]
  by_cases hc : s.current_currency = "USD"
  · rw [if_pos hc]
    exact ⟨_, rfl, hsym, hts, rfl, fun _ => rfl, fun hne => absurd hc hne⟩
  · rw [if_neg hc]
    rcases hcv : env.convertCurrency q0.price s.current_currency with _ | cp
    · exact ⟨_, rfl, hsym, hts, rfl, fun hu => absurd hu hc,
        fun _ => Or.inl ⟨rfl, hcv⟩⟩
    · exact ⟨_, rfl, hsym, hts, rfl, fun hu => absurd hu hc,
        fun _ => Or.inr ⟨rfl, ⟨q0.price, hcv⟩⟩⟩

/-- Unfolding one step of a sweep fold. -/
lemma sweepStep_eq (op : ServiceState → String → ServiceState × List OutMsg)
    (s : ServiceState) (acc : List OutMsg) (sym : String) :
    sweepStep op (s, acc) sym = ((op s sym).1, acc ++ (op s sym).2) := rfl

/-- A sweep only ever appends to the accumulated outbound messages. -/
lemma sweep_out_extends
    (op : ServiceState → String → ServiceState × List OutMsg)
    (l : List String) :
    ∀ (s0 : ServiceState) (acc : List OutMsg),
      ∃ rest, (l.foldl (sweepStep op) (s0, acc)).2 = acc ++ rest := by
  induction l with
  | nil => exact fun s0 acc => ⟨[], by simp⟩
  | cons x xs ih =>
    intro s0 acc
    obtain ⟨rest, hr⟩ := ih (op s0 x).1 (acc ++ (op s0 x).2)
    refine ⟨(op s0 x).2 ++ rest, ?_⟩
    rw [List.foldl_cons, sweepStep_eq, hr, List.append_assoc]

/-- Any state observation each sweep step preserves is preserved by the
whole sweep. -/
lemma sweep_preserves {α : Type}
    (op : ServiceState → String → ServiceState × List OutMsg)
    (f : ServiceState → α) (hf : ∀ s sym, f (op s sym).1 = f s)
    (l : List String) :
    ∀ (s0 : ServiceState) (acc : List OutMsg),
      f (l.foldl (sweepStep op) (s0, acc)).1 = f s0 := by
  induction l with
  | nil => exact fun s0 acc => rfl
  | cons x xs ih =>
    intro s0 acc
    rw [List.foldl_cons, sweepStep_eq, ih, hf]

/-- If the per-symbol operation publishes exactly one QuoteUpdate
satisfying P for every symbol meeting cond (under a fixed currency that
the operation preserves), then after a sweep every such symbol has a
QuoteUpdate satisfying P among the accumulated messages. -/
lemma sweep_emits
    (op : ServiceState → String → ServiceState × List OutMsg)
    (cond : String → Bool) (P : String → StockQuote → Prop) (cur : String)
    (hpres : ∀ s sym, (op s sym).1.current_currency = s.current_currency)
    (hop : ∀ s sym, s.current_currency = cur → cond sym = true →
      ∃ q, (op s sym).2 = [OutMsg.QuoteUpdate q] ∧ P sym q)
    (l : List String) :
    ∀ (s0 : ServiceState) (acc : List OutMsg),
      s0.current_currency = cur →
      ∀ sym ∈ l, cond sym = true →
        ∃ q, OutMsg.QuoteUpdate q ∈ (l.foldl (sweepStep op) (s0, acc)).2 ∧
          P sym q := by
  induction l with
  | nil =>
    intro s0 acc _ sym hmem
    exact absurd hmem (List.not_mem_nil sym)
  | cons x xs ih =>
    intro s0 acc hcur sym hmem hcond
    rw [List.foldl_cons, sweepStep_eq]
    rcases List.mem_cons.mp hmem with heq | hmem2
    · subst heq
      obtain ⟨q, hout, hP⟩ := hop s0 sym hcur hcond
      obtain ⟨rest, hr⟩ :=
        sweep_out_extends op xs (op s0 sym).1 (acc ++ (op s0 sym).2)
      refine ⟨q, ?_, hP⟩
      rw [hr, hout]
      simp
    · exact ih (op s0 x).1 (acc ++ (op s0 x).2)
        (by rw [hpres]; exact hcur) sym hmem2 hcond

/-- Inserting a symbol into a set-like list makes it a member. -/
lemma mem_insertUnique_self (l : List String) (x : String) :
    x ∈ insertUnique l x := by
  unfold insertUnique
  by_cases hx : x ∈ l
  · rw [if_pos hx]; exact hx
  · rw [if_neg hx]; simp

/-- Members of an insertUnique result come from the list or are the new
element. -/
lemma mem_insertUnique (l : List String) (x y : String)
    (h : y ∈ insertUnique l x) : y ∈ l ∨ y = x := by
  unfold insertUnique at h
  by_cases hx : x ∈ l
  · rw [if_pos hx] at h; exact Or.inl h
  · rw [if_neg hx] at h
    rcases List.mem_append.mp h with h1 | h1
    · exact Or.inl h1
    · exact Or.inr (List.mem_singleton.mp h1)

/-- insertUnique on a fresh element appends it. -/
lemma insertUnique_not_mem (l : List String) (x : String) (h : x ∉ l) :
    insertUnique l x = l ++ [x] := by
  unfold insertUnique
  rw [if_neg h]

/-- Members of a restore fold come from the accumulator or the restored
list. -/
lemma mem_foldl_insertUnique (l : List String) :
    ∀ (acc : List String) (x : String),
      x ∈ l.foldl insertUnique acc → x ∈ acc ∨ x ∈ l := by
  induction l with
  | nil => exact fun acc x h => Or.inl h
  | cons y ys ih =>
    intro acc x h
    rw [List.foldl_cons] at h
    rcases ih (insertUnique acc y) x h with h1 | h1
    · rcases mem_insertUnique acc y x h1 with h2 | h2
      · exact Or.inl h2
      · exact Or.inr (by rw [h2]; exact List.mem_cons_self y ys)
    · exact Or.inr (List.mem_cons_of_mem y h1)

/-- Restoring a duplicate-free list disjoint from the accumulator appends
it verbatim. -/
lemma foldl_insertUnique_nodup (l : List String) :
    ∀ (acc : List String), l.Nodup → (∀ x ∈ l, x ∉ acc) →
      l.foldl insertUnique acc = acc ++ l := by
  induction l with
  | nil => exact fun acc _ _ => by simp
  | cons y ys ih =>
    intro acc hnd hdisj
    rw [List.foldl_cons,
      insertUnique_not_mem acc y (hdisj y (List.mem_cons_self y ys)),
      ih (acc ++ [y]) (List.Nodup.of_cons hnd) ?_]
    · simp
    · intro x hx hmem
      rcases List.mem_append.mp hmem with h1 | h1
      · exact hdisj x (List.mem_cons_of_mem y hx) h1
      · rw [List.mem_singleton.mp h1] at hx
        exact (List.nodup_cons.mp hnd).1 hx

/-- Full characterisation of subscribeStock on a valid, not yet subscribed
symbol: the symbol is added to the in-memory set, persisted, the ack is
published before exactly one QuoteUpdate carrying the symbol, and the
published price is persisted. -/
lemma subscribeStock_new_spec (env : Env) (s : ServiceState) (sym : String)
    (hval : isValidSymbol sym = true) (hnew : sym ∉ s.subscribed_stocks) :
    ∃ q mock1,
      subscribeStock env s sym =
        ({ current_currency := s.current_currency
         , subscribed_stocks := s.subscribed_stocks ++ [sym]
         , mock := mock1
         , db_subs := insertUnique s.db_subs sym
         , db_prices := storeStockPrice s.db_prices sym q.price q.timestamp
         , clock := s.clock + 1 },
        [OutMsg.SubscribeAck sym, OutMsg.QuoteUpdate q]) ∧
      q.symbol = sym ∧ q.timestamp = s.clock ∧
      (s.current_currency = "USD" → q.currency = "USD") := by
  obtain ⟨q0, ms2, hg, hsym, hcur, hts⟩ :=
    generateQuote_some env.draw s.mock s.clock sym hval
  unfold subscribeStock
  simp only [hval, if_true, hnew, if_neg, not_false_eq_true, ite_not, hg]
  by_cases hc : s.current_currency = "USD"
  · rw [if_pos hc]
    exact ⟨_, ms2, rfl, hsym, hts, fun _ => rfl⟩
  · rw [if_neg hc]
    rcases hcv : env.convertCurrency 1 s.current_currency with _ | rate
    · exact ⟨_, ms2, rfl, hsym, hts, fun _ => rfl⟩
    · exact ⟨_, ms2, rfl, hsym, hts, fun hu => absurd hu hc⟩

/-- queryStock on an invalid symbol publishes exactly the invalid-symbol
error and leaves the whole state unchanged. -/
lemma queryStock_invalid (env : Env) (s : ServiceState) (sym : String)
    (h : isValidSymbol sym = false) :
    queryStock env s sym = (s, [OutMsg.Error ("Invalid symbol: " ++ sym)]) := by
  unfold queryStock
  rw [if_pos (by simp [h])]

/-- subscribeStock on an invalid symbol publishes exactly the
invalid-symbol error and leaves the whole state unchanged. -/
lemma subscribeStock_invalid (env : Env) (s : ServiceState) (sym : String)
    (h : isValidSymbol sym = false) :
    subscribeStock env s sym =
      (s, [OutMsg.Error ("Invalid symbol: " ++ sym)]) := by
  unfold subscribeStock
  rw [if_neg (by simp [h])]

/-- subscribeStock on an already subscribed symbol publishes exactly the
already-subscribed error and leaves the whole state unchanged. -/
lemma subscribeStock_already (env : Env) (s : ServiceState) (sym : String)
    (hval : isValidSymbol sym = true) (hmem : sym ∈ s.subscribed_stocks) :
    subscribeStock env s sym =
      (s, [OutMsg.Error ("Already subscribed to " ++ sym)]) := by
  unfold subscribeStock
  rw [if_pos hval, if_pos hmem]

/-! ## Claim theorems -/

/-- C1: the claim says generateQuote stores the newly computed price as the
symbol's PriceState so that a second call walks from p1.  The code instead
copies `last_prices[symbol]` into a local and assigns the new price only to
that local, so the stored PriceState stays 0: with the draw oracle
constantly 1, two successive calls on AAPL both re-seed from the 175 base
price, both return price 350, and the second call's changePercent is 100,
not (p2 - p1) / p1 * 100 = 0. -/
theorem c1_priceState_not_stored :
    generateQuote (fun _ => 1) ⟨[], 0⟩ 0 "AAPL"
      = some (⟨"AAPL", 350, "USD", 100, 0⟩, ⟨[("AAPL", 0)], 1⟩) ∧
    generateQuote (fun _ => 1) ⟨[("AAPL", 0)], 1⟩ 1 "AAPL"
      = some (⟨"AAPL", 350, "USD", 100, 1⟩, ⟨[("AAPL", 0)], 2⟩) ∧
    (100 : ℚ) ≠ (350 - 350) / 350 * 100 := by
  refine ⟨?_, ?_, by norm_num⟩
  · simp [generateQuote, mapIndex, stock_configs, List.lookup]
    norm_num
  · simp [generateQuote, mapIndex, stock_configs, List.lookup]
    norm_num

/-- C9: for a symbol with no StockConfig entry, generateQuote always fails
(never returns a quote) and a Query command publishes exactly one
invalid-symbol Error, leaving the state — including persistence —
untouched. -/
theorem c9_unknown_symbol (env : Env) (s : ServiceState) (d : Nat → ℚ)
    (ms : MockState) (c : Nat) (sym : String)
    (h : isValidSymbol sym = false) :
    generateQuote d ms c sym = none ∧
    handleMessage env s (Command.Query sym) =
      (s, [OutMsg.Error ("Invalid symbol: " ++ sym)]) :=
  ⟨generateQuote_none d ms c sym h, by
    simp only [handleMessage]
    exact queryStock_invalid env s sym h⟩

/-- C9 witness: the theorem instantiated at the unknown symbol FAKE. -/
theorem c9_unknown_symbol_witness :
    isValidSymbol "FAKE" = false ∧
    (generateQuote (fun _ => 1) ⟨[], 0⟩ 0 "FAKE" = none ∧
     handleMessage
       ⟨fun _ => true, fun a _ => some a, fun _ => 1⟩
       (initService []) (Command.Query "FAKE") =
       (initService [], [OutMsg.Error ("Invalid symbol: " ++ "FAKE")])) :=
  ⟨by decide,
   c9_unknown_symbol ⟨fun _ => true, fun a _ => some a, fun _ => 1⟩
     (initService []) (fun _ => 1) ⟨[], 0⟩ 0 "FAKE" (by decide)⟩

/-- Synchronisation between the persisted subscription set and the
in-memory subscribed_stocks set. -/
def dbMemSync (s : ServiceState) : Prop :=
  s.db_subs = s.subscribed_stocks

/-- C2: sendSubscriptionsList reads the persisted set, but that set stays
identical to the in-memory subscribed_stocks set: the equality holds after
construction, is preserved by every command, and under it the
RequestSubscriptions publication is exactly the in-memory snapshot. -/
theorem c2_subscriptions_list_is_memory (env : Env)
    (persisted : List String) (s : ServiceState) (cmd : Command)
    (hnd : persisted.Nodup) (h : dbMemSync s) :
    dbMemSync (initService persisted) ∧
    dbMemSync (handleMessage env s cmd).1 ∧
    (handleMessage env s Command.RequestSubscriptions).2 =
      [OutMsg.SubscriptionsList s.subscribed_stocks] := by
  refine ⟨?_, ?_, ?_⟩
  · show persisted = persisted.foldl insertUnique []
    rw [foldl_insertUnique_nodup persisted [] hnd
      (fun x _ => List.not_mem_nil x)]
    simp
  · cases cmd with
    | Subscribe sym =>
      show dbMemSync (subscribeStock env s sym).1
      by_cases hval : isValidSymbol sym = true
      · by_cases hmem : sym ∈ s.subscribed_stocks
        · rw [subscribeStock_already env s sym hval hmem]
          exact h
        · obtain ⟨q, mock1, heq, _⟩ :=
            subscribeStock_new_spec env s sym hval hmem
          rw [heq]
          show insertUnique s.db_subs sym = s.subscribed_stocks ++ [sym]
          have h2 : s.db_subs = s.subscribed_stocks := h
          rw [h2]
          exact insertUnique_not_mem s.subscribed_stocks sym hmem
      · rw [subscribeStock_invalid env s sym (by simpa using hval)]
        exact h
    | Unsubscribe sym =>
      show dbMemSync (unsubscribeStock s sym).1
      unfold unsubscribeStock
      by_cases hmem : sym ∈ s.subscribed_stocks
      · rw [if_pos hmem]
        show s.db_subs.erase sym = s.subscribed_stocks.erase sym
        rw [h]
      · rw [if_neg hmem]
        exact h
    | Query sym =>
      show dbMemSync (queryStock env s sym).1
      obtain ⟨_, hsub, hdb⟩ := queryStock_preserves env s sym
      show (queryStock env s sym).1.db_subs =
        (queryStock env s sym).1.subscribed_stocks
      rw [hsub, hdb]
      exact h
    | PriceHistoryRequest sym => exact h
    | RequestSubscriptions => exact h
    | SetCurrency code =>
      show dbMemSync (handleMessage env s (Command.SetCurrency code)).1
      simp only [handleMessage]
      by_cases hc : env.isValidCurrencyCode code = true
      · rw [if_pos hc]
        have h1 := sweep_preserves (queryStock env) ServiceState.db_subs
          (fun s2 sym => (queryStock_preserves env s2 sym).2.2)
          s.subscribed_stocks ({ s with current_currency := code }) []
        have h2 := sweep_preserves (queryStock env)
          ServiceState.subscribed_stocks
          (fun s2 sym => (queryStock_preserves env s2 sym).2.1)
          s.subscribed_stocks ({ s with current_currency := code }) []
        show (List.foldl (sweepStep (queryStock env))
            ({ s with current_currency := code }, [])
            s.subscribed_stocks).1.db_subs =
          (List.foldl (sweepStep (queryStock env))
            ({ s with current_currency := code }, [])
            s.subscribed_stocks).1.subscribed_stocks
        rw [h1, h2]
        exact h
      · rw [if_neg hc]
        exact h
  · show (sendSubscriptionsList s).2 =
      [OutMsg.SubscriptionsList s.subscribed_stocks]
    unfold sendSubscriptionsList
    rw [h]

/-- C2 witness: the theorem instantiated at a restored one-symbol service
handling a Subscribe command. -/
theorem c2_subscriptions_list_is_memory_witness :
    (["AAPL"] : List String).Nodup ∧
    (dbMemSync (initService ["AAPL"]) ∧
     dbMemSync (handleMessage
       ⟨fun _ => true, fun a _ => some a, fun _ => 1⟩
       (initService ["AAPL"]) (Command.Subscribe "MSFT")).1 ∧
     (handleMessage ⟨fun _ => true, fun a _ => some a, fun _ => 1⟩
       (initService ["AAPL"]) Command.RequestSubscriptions).2 =
       [OutMsg.SubscriptionsList (initService ["AAPL"]).subscribed_stocks]) :=
  ⟨by decide,
   c2_subscriptions_list_is_memory
     ⟨fun _ => true, fun a _ => some a, fun _ => 1⟩ ["AAPL"]
     (initService ["AAPL"]) (Command.Subscribe "MSFT") (by decide)
     (by unfold dbMemSync initService; decide)⟩

/-- Every in-memory subscription has a StockConfig entry. -/
def SubsValid (s : ServiceState) : Prop :=
  ∀ x ∈ s.subscribed_stocks, isValidSymbol x = true

/-- C3 counterexample: the constructor restores persisted subscriptions
without checking them against the StockConfig table, so construction from
a persisted set containing the unknown symbol FAKE yields a state whose
Subscription Set is not contained in the valid-symbol universe. -/
theorem c3_restore_unvalidated_counterexample :
    "FAKE" ∈ (initService ["FAKE"]).subscribed_stocks ∧
    isValidSymbol "FAKE" = false := by decide

/-- C3 (amended): the invariant Subscription Set ⊆ valid-symbol universe
is preserved by every command, and holds after construction provided every
restored persisted symbol has a StockConfig entry (the restore itself
performs no validation). -/
theorem c3_subscription_validity_invariant (env : Env)
    (persisted : List String) (s : ServiceState) (cmd : Command)
    (hp : ∀ x ∈ persisted, isValidSymbol x = true) (h : SubsValid s) :
    SubsValid (initService persisted) ∧
    SubsValid (handleMessage env s cmd).1 := by
  constructor
  · intro x hx
    rcases mem_foldl_insertUnique persisted [] x hx with h1 | h1
    · exact absurd h1 (List.not_mem_nil x)
    · exact hp x h1
  · cases cmd with
    | Subscribe sym =>
      show SubsValid (subscribeStock env s sym).1
      by_cases hval : isValidSymbol sym = true
      · by_cases hmem : sym ∈ s.subscribed_stocks
        · rw [subscribeStock_already env s sym hval hmem]
          exact h
        · obtain ⟨q, mock1, heq, _⟩ :=
            subscribeStock_new_spec env s sym hval hmem
          rw [heq]
          intro x hx
          rcases List.mem_append.mp hx with h1 | h1
          · exact h x h1
          · rw [List.mem_singleton.mp h1]
            exact hval
      · rw [subscribeStock_invalid env s sym (by simpa using hval)]
        exact h
    | Unsubscribe sym =>
      show SubsValid (unsubscribeStock s sym).1
      unfold unsubscribeStock
      by_cases hmem : sym ∈ s.subscribed_stocks
      · rw [if_pos hmem]
        intro x hx
        exact h x (List.mem_of_mem_erase hx)
      · rw [if_neg hmem]
        exact h
    | Query sym =>
      show SubsValid (queryStock env s sym).1
      intro x hx
      rw [(queryStock_preserves env s sym).2.1] at hx
      exact h x hx
    | PriceHistoryRequest sym => exact h
    | RequestSubscriptions => exact h
    | SetCurrency code =>
      show SubsValid (handleMessage env s (Command.SetCurrency code)).1
      simp only [handleMessage]
      by_cases hc : env.isValidCurrencyCode code = true
      · rw [if_pos hc]
        intro x hx
        rw [sweep_preserves (queryStock env) ServiceState.subscribed_stocks
          (fun s2 sym => (queryStock_preserves env s2 sym).2.1)
          s.subscribed_stocks ({ s with current_currency := code }) []] at hx
        exact h x hx
      · rw [if_neg hc]
        exact h

/-- C3 witness: the amended theorem instantiated at a valid persisted set
and a Subscribe command. -/
theorem c3_subscription_validity_invariant_witness :
    (∀ x ∈ (["AAPL"] : List String), isValidSymbol x = true) ∧
    (SubsValid (initService ["AAPL"]) ∧
     SubsValid (handleMessage
       ⟨fun _ => true, fun a _ => some a, fun _ => 1⟩
       (initService ["AAPL"]) (Command.Subscribe "MSFT")).1) :=
  ⟨by decide,
   c3_subscription_validity_invariant
     ⟨fun _ => true, fun a _ => some a, fun _ => 1⟩ ["AAPL"]
     (initService ["AAPL"]) (Command.Subscribe "MSFT") (by decide)
     (by unfold SubsValid initService; decide)⟩

/-- C5: a SetCurrency command with a code accepted by the converter sets
Current Currency to the code and re-issues a Query (hence a QuoteUpdate)
for every currently subscribed symbol; a rejected code leaves the whole
state unchanged and publishes exactly one invalid-currency Error. -/
theorem c5_set_currency (env : Env) (s : ServiceState) (code : String)
    (hv : ∀ x ∈ s.subscribed_stocks, isValidSymbol x = true) :
    (env.isValidCurrencyCode code = true →
      (handleMessage env s (Command.SetCurrency code)).1.current_currency
        = code ∧
      ∀ sym ∈ s.subscribed_stocks, ∃ q,
        OutMsg.QuoteUpdate q ∈
          (handleMessage env s (Command.SetCurrency code)).2 ∧
        q.symbol = sym) ∧
    (env.isValidCurrencyCode code = false →
      handleMessage env s (Command.SetCurrency code) =
        (s, [OutMsg.Error ("Invalid currency code: " ++ code)])) := by
  constructor
  · intro hvalid
    simp only [handleMessage]
    rw [if_pos hvalid]
    constructor
    · exact sweep_preserves (queryStock env) ServiceState.current_currency
        (fun s2 sym => (queryStock_preserves env s2 sym).1)
        s.subscribed_stocks ({ s with current_currency := code }) []
    · intro sym hmem
      exact sweep_emits (queryStock env) isValidSymbol
        (fun sy q => q.symbol = sy) code
        (fun s2 sy => (queryStock_preserves env s2 sy).1)
        (fun s2 sy _ hcond => by
          obtain ⟨q, hout, hsy, _⟩ := queryStock_valid env s2 sy hcond
          exact ⟨q, hout, hsy⟩)
        s.subscribed_stocks ({ s with current_currency := code }) []
        rfl sym hmem (hv sym hmem)
  · intro hinvalid
    simp only [handleMessage]
    rw [if_neg (by simp [hinvalid])]

/-- C5 witness: the theorem instantiated at a converter accepting exactly
EUR, and a one-symbol subscription set. -/
theorem c5_set_currency_witness :
    (∀ x ∈ (initService ["AAPL"]).subscribed_stocks,
      isValidSymbol x = true) ∧
    ((Env.isValidCurrencyCode
        ⟨fun c => c == "EUR", fun a _ => some (2 * a), fun _ => 1⟩
        "EUR" = true →
      (handleMessage ⟨fun c => c == "EUR", fun a _ => some (2 * a),
          fun _ => 1⟩
        (initService ["AAPL"]) (Command.SetCurrency "EUR")).1.current_currency
        = "EUR" ∧
      ∀ sym ∈ (initService ["AAPL"]).subscribed_stocks, ∃ q,
        OutMsg.QuoteUpdate q ∈
          (handleMessage ⟨fun c => c == "EUR", fun a _ => some (2 * a),
              fun _ => 1⟩
            (initService ["AAPL"]) (Command.SetCurrency "EUR")).2 ∧
        q.symbol = sym) ∧
     (Env.isValidCurrencyCode
        ⟨fun c => c == "EUR", fun a _ => some (2 * a), fun _ => 1⟩
        "EUR" = false →
      handleMessage ⟨fun c => c == "EUR", fun a _ => some (2 * a),
          fun _ => 1⟩
        (initService ["AAPL"]) (Command.SetCurrency "EUR") =
        (initService ["AAPL"],
         [OutMsg.Error ("Invalid currency code: " ++ "EUR")]))) :=
  ⟨by decide,
   c5_set_currency
     ⟨fun c => c == "EUR", fun a _ => some (2 * a), fun _ => 1⟩
     (initService ["AAPL"]) "EUR" (by decide)⟩

/-- C6: subscribing a valid, not yet subscribed symbol adds it to the
Subscription Set, persists the addition, and publishes the SubscribeAck
strictly before exactly one QuoteUpdate carrying the symbol (generated in
the base currency, best-effort converted), whose published price and
timestamp are then persisted as a price point. -/
theorem c6_subscribe_sequence (env : Env) (s : ServiceState) (sym : String)
    (hval : isValidSymbol sym = true) (hnew : sym ∉ s.subscribed_stocks) :
    ∃ q, (handleMessage env s (Command.Subscribe sym)).2 =
        [OutMsg.SubscribeAck sym, OutMsg.QuoteUpdate q] ∧
      q.symbol = sym ∧
      (handleMessage env s (Command.Subscribe sym)).1.subscribed_stocks =
        s.subscribed_stocks ++ [sym] ∧
      (handleMessage env s (Command.Subscribe sym)).1.db_subs =
        insertUnique s.db_subs sym ∧
      (handleMessage env s (Command.Subscribe sym)).1.db_prices =
        storeStockPrice s.db_prices sym q.price q.timestamp ∧
      (s.current_currency = "USD" → q.currency = "USD") := by
  obtain ⟨q, mock1, heq, hsym, hts, hcur⟩ :=
    subscribeStock_new_spec env s sym hval hnew
  simp only [handleMessage]
  rw [heq]
  exact ⟨q, rfl, hsym, rfl, rfl, rfl, hcur⟩

/-- C6 witness: the theorem instantiated at a fresh service subscribing
AAPL. -/
theorem c6_subscribe_sequence_witness :
    isValidSymbol "AAPL" = true ∧
    "AAPL" ∉ (initService []).subscribed_stocks ∧
    (∃ q, (handleMessage ⟨fun _ => true, fun a _ => some a, fun _ => 1⟩
        (initService []) (Command.Subscribe "AAPL")).2 =
        [OutMsg.SubscribeAck "AAPL", OutMsg.QuoteUpdate q] ∧
      q.symbol = "AAPL" ∧
      (handleMessage ⟨fun _ => true, fun a _ => some a, fun _ => 1⟩
        (initService []) (Command.Subscribe "AAPL")).1.subscribed_stocks =
        (initService []).subscribed_stocks ++ ["AAPL"] ∧
      (handleMessage ⟨fun _ => true, fun a _ => some a, fun _ => 1⟩
        (initService []) (Command.Subscribe "AAPL")).1.db_subs =
        insertUnique (initService []).db_subs "AAPL" ∧
      (handleMessage ⟨fun _ => true, fun a _ => some a, fun _ => 1⟩
        (initService []) (Command.Subscribe "AAPL")).1.db_prices =
        storeStockPrice (initService []).db_prices "AAPL" q.price
          q.timestamp ∧
      ((initService []).current_currency = "USD" → q.currency = "USD")) :=
  ⟨by decide, by decide,
   c6_subscribe_sequence ⟨fun _ => true, fun a _ => some a, fun _ => 1⟩
     (initService []) "AAPL" (by decide) (by decide)⟩

/-- C7: after subscribing a valid fresh symbol it is a member of the
in-memory set and appears in the published subscriptions listing; a second
Subscribe for the same symbol publishes exactly the already-subscribed
Error and returns the state unchanged — so nothing is persisted and no
SubscribeAck or QuoteUpdate is published. -/
theorem c7_double_subscribe (env : Env) (s : ServiceState) (sym : String)
    (hval : isValidSymbol sym = true) (hnew : sym ∉ s.subscribed_stocks) :
    sym ∈ (handleMessage env s (Command.Subscribe sym)).1.subscribed_stocks ∧
    (∃ l, (handleMessage env (handleMessage env s (Command.Subscribe sym)).1
        Command.RequestSubscriptions).2 = [OutMsg.SubscriptionsList l] ∧
      sym ∈ l) ∧
    handleMessage env (handleMessage env s (Command.Subscribe sym)).1
        (Command.Subscribe sym) =
      ((handleMessage env s (Command.Subscribe sym)).1,
       [OutMsg.Error ("Already subscribed to " ++ sym)]) := by
  obtain ⟨q, mock1, heq, hsym, hts, hcur⟩ :=
    subscribeStock_new_spec env s sym hval hnew
  simp only [handleMessage]
  rw [heq]
  refine ⟨by simp, ⟨insertUnique s.db_subs sym, rfl,
    mem_insertUnique_self s.db_subs sym⟩, ?_⟩
  exact subscribeStock_already env _ sym hval (by simp)

/-- C7 witness: the theorem instantiated at a fresh service subscribing
AAPL twice. -/
theorem c7_double_subscribe_witness :
    isValidSymbol "AAPL" = true ∧
    "AAPL" ∉ (initService []).subscribed_stocks ∧
    ("AAPL" ∈ (handleMessage ⟨fun _ => true, fun a _ => some a, fun _ => 1⟩
        (initService []) (Command.Subscribe "AAPL")).1.subscribed_stocks ∧
     (∃ l, (handleMessage ⟨fun _ => true, fun a _ => some a, fun _ => 1⟩
        (handleMessage ⟨fun _ => true, fun a _ => some a, fun _ => 1⟩
          (initService []) (Command.Subscribe "AAPL")).1
        Command.RequestSubscriptions).2 = [OutMsg.SubscriptionsList l] ∧
       "AAPL" ∈ l) ∧
     handleMessage ⟨fun _ => true, fun a _ => some a, fun _ => 1⟩
        (handleMessage ⟨fun _ => true, fun a _ => some a, fun _ => 1⟩
          (initService []) (Command.Subscribe "AAPL")).1
        (Command.Subscribe "AAPL") =
      ((handleMessage ⟨fun _ => true, fun a _ => some a, fun _ => 1⟩
          (initService []) (Command.Subscribe "AAPL")).1,
       [OutMsg.Error ("Already subscribed to " ++ "AAPL")])) :=
  ⟨by decide, by decide,
   c7_double_subscribe ⟨fun _ => true, fun a _ => some a, fun _ => 1⟩
     (initService []) "AAPL" (by decide) (by decide)⟩

/-- C8: in a broadcast tick over a snapshot of valid subscribed symbols,
every symbol yields one QuoteUpdate in that tick — a conversion failure for
one symbol never suppresses the others — and a quote affected by a
conversion failure is published with the un-converted base-currency
amount (currency USD), while a converted one carries the current currency
and a converter-produced price. -/
theorem c8_broadcast_isolation (env : Env) (s : ServiceState)
    (hv : ∀ x ∈ s.subscribed_stocks, isValidSymbol x = true) :
    ∀ sym ∈ s.subscribed_stocks, ∃ q,
      OutMsg.QuoteUpdate q ∈ (broadcastTick env s).2 ∧ q.symbol = sym ∧
      (s.current_currency = "USD" → q.currency = "USD") ∧
      (s.current_currency ≠ "USD" →
        (q.currency = "USD" ∧
          env.convertCurrency q.price s.current_currency = none) ∨
        (q.currency = s.current_currency ∧
          ∃ b, env.convertCurrency b s.current_currency = some q.price)) := by
  intro sym hmem
  unfold broadcastTick
  exact sweep_emits (tickOne env) isValidSymbol
    (fun sy q => q.symbol = sy ∧
      (s.current_currency = "USD" → q.currency = "USD") ∧
      (s.current_currency ≠ "USD" →
        (q.currency = "USD" ∧
          env.convertCurrency q.price s.current_currency = none) ∨
        (q.currency = s.current_currency ∧
          ∃ b, env.convertCurrency b s.current_currency = some q.price)))
    s.current_currency
    (fun s2 sy => (tickOne_preserves env s2 sy).1)
    (fun s2 sy hc hcond => by
      obtain ⟨q, hout, hsy, _, _, husd, hne⟩ := tickOne_valid env s2 sy hcond
      refine ⟨q, hout, hsy, fun hu => husd (by rw [hc]; exact hu), ?_⟩
      intro hu
      have hres := hne (by rw [hc]; exact hu)
      rwa [hc] at hres)
    s.subscribed_stocks s [] rfl sym hmem (hv sym hmem)

/-- C8 witness: a tick over two subscribed symbols under an
always-failing converter and a non-USD current currency; applied at the
second symbol, showing it still yields a QuoteUpdate. -/
theorem c8_broadcast_isolation_witness :
    (∀ x ∈ (⟨"EUR", ["AAPL", "MSFT"], ⟨[], 0⟩, ["AAPL", "MSFT"], [], 0⟩ :
        ServiceState).subscribed_stocks, isValidSymbol x = true) ∧
    "MSFT" ∈ (⟨"EUR", ["AAPL", "MSFT"], ⟨[], 0⟩, ["AAPL", "MSFT"], [], 0⟩ :
        ServiceState).subscribed_stocks ∧
    (∃ q, OutMsg.QuoteUpdate q ∈
        (broadcastTick ⟨fun _ => true, fun _ _ => none, fun _ => 1⟩
          ⟨"EUR", ["AAPL", "MSFT"], ⟨[], 0⟩, ["AAPL", "MSFT"], [], 0⟩).2 ∧
      q.symbol = "MSFT" ∧
      ((⟨"EUR", ["AAPL", "MSFT"], ⟨[], 0⟩, ["AAPL", "MSFT"], [], 0⟩ :
          ServiceState).current_currency = "USD" → q.currency = "USD") ∧
      ((⟨"EUR", ["AAPL", "MSFT"], ⟨[], 0⟩, ["AAPL", "MSFT"], [], 0⟩ :
          ServiceState).current_currency ≠ "USD" →
        (q.currency = "USD" ∧
          Env.convertCurrency ⟨fun _ => true, fun _ _ => none, fun _ => 1⟩
            q.price "EUR" = none) ∨
        (q.currency = "EUR" ∧
          ∃ b, Env.convertCurrency
            ⟨fun _ => true, fun _ _ => none, fun _ => 1⟩ b "EUR"
            = some q.price))) :=
  ⟨by decide, by decide,
   c8_broadcast_isolation ⟨fun _ => true, fun _ _ => none, fun _ => 1⟩
     ⟨"EUR", ["AAPL", "MSFT"], ⟨[], 0⟩, ["AAPL", "MSFT"], [], 0⟩
     (by decide) "MSFT" (by decide)⟩

/-- C10 (implicit): the persisted price point for a published quote is
built by storeStockPrice from exactly the published quote's
post-conversion price and its timestamp under the bare symbol — the
PricePoint record retains no currency code and no changePercent — for
both the Query path and the broadcast-tick path. -/
theorem c10_persisted_price_point (env : Env) (s : ServiceState)
    (sym : String) (h : isValidSymbol sym = true) :
    (∃ q, (queryStock env s sym).2 = [OutMsg.QuoteUpdate q] ∧
      (queryStock env s sym).1.db_prices =
        storeStockPrice s.db_prices sym q.price q.timestamp ∧
      storeStockPrice s.db_prices sym q.price q.timestamp =
        s.db_prices ++ [⟨sym, q.price, q.timestamp⟩]) ∧
    (∃ q, (tickOne env s sym).2 = [OutMsg.QuoteUpdate q] ∧
      (tickOne env s sym).1.db_prices =
        storeStockPrice s.db_prices sym q.price q.timestamp ∧
      storeStockPrice s.db_prices sym q.price q.timestamp =
        s.db_prices ++ [⟨sym, q.price, q.timestamp⟩]) := by
  constructor
  · obtain ⟨q, hout, _, _, hdb, _⟩ := queryStock_valid env s sym h
    exact ⟨q, hout, hdb, rfl⟩
  · obtain ⟨q, hout, _, _, hdb, _⟩ := tickOne_valid env s sym h
    exact ⟨q, hout, hdb, rfl⟩

/-- C10 witness: the theorem instantiated at a non-USD currency with a
doubling converter, so the persisted price is the converted amount. -/
theorem c10_persisted_price_point_witness :
    isValidSymbol "AAPL" = true ∧
    ((∃ q, (queryStock ⟨fun _ => true, fun a _ => some (2 * a), fun _ => 1⟩
        ⟨"EUR", ["AAPL"], ⟨[], 0⟩, ["AAPL"], [], 0⟩ "AAPL").2 =
        [OutMsg.QuoteUpdate q] ∧
      (queryStock ⟨fun _ => true, fun a _ => some (2 * a), fun _ => 1⟩
        ⟨"EUR", ["AAPL"], ⟨[], 0⟩, ["AAPL"], [], 0⟩ "AAPL").1.db_prices =
        storeStockPrice [] "AAPL" q.price q.timestamp ∧
      storeStockPrice [] "AAPL" q.price q.timestamp =
        [] ++ [⟨"AAPL", q.price, q.timestamp⟩]) ∧
     (∃ q, (tickOne ⟨fun _ => true, fun a _ => some (2 * a), fun _ => 1⟩
        ⟨"EUR", ["AAPL"], ⟨[], 0⟩, ["AAPL"], [], 0⟩ "AAPL").2 =
        [OutMsg.QuoteUpdate q] ∧
      (tickOne ⟨fun _ => true, fun a _ => some (2 * a), fun _ => 1⟩
        ⟨"EUR", ["AAPL"], ⟨[], 0⟩, ["AAPL"], [], 0⟩ "AAPL").1.db_prices =
        storeStockPrice [] "AAPL" q.price q.timestamp ∧
      storeStockPrice [] "AAPL" q.price q.timestamp =
        [] ++ [⟨"AAPL", q.price, q.timestamp⟩])) :=
  ⟨by decide,
   c10_persisted_price_point
     ⟨fun _ => true, fun a _ => some (2 * a), fun _ => 1⟩
     ⟨"EUR", ["AAPL"], ⟨[], 0⟩, ["AAPL"], [], 0⟩ "AAPL" (by decide)⟩

end StockTracker
